import Mathlib

/-!
# Verification of the Spot-Marker audio/preview engine

Shallow embedding of the repository's audio utility module
(`getSharedAudioContext`, `pcmToAudioBuffer`, `mixAudioAndExport`,
`bufferToWav`) and of the `VideoPreview` component (`drawFrame` caption
selection, `stop`, shared audio-context lifecycle), together with proofs
of the specification's claims about them.

Modelling conventions:
* JavaScript numbers are modelled as exact rationals (`ℚ`); integer byte
  values as `ℕ`; DataView/TypedArray reads and writes carry explicit
  two's-complement wrapping.
* The WebIDL `unsigned long` conversion applied to a fractional argument
  (used when `OfflineAudioContext` receives `sampleRate * duration`)
  truncates toward zero, i.e. takes the floor of a non-negative value.
* `AudioContext.createBuffer(channels, length, rate)` throws
  `NotSupportedError` when `length = 0` (Web Audio, createBuffer: every
  argument outside its nominal range, zero included, must be rejected).
* The Web Audio rendering of a source node into an offline destination
  (resampling a buffer of arbitrary sample rate to the 44100 Hz stereo
  context) is implementation-internal; it is kept as an explicit function
  parameter `render`.  The repository-visible graph structure — the voice
  source connected to the destination, the optional looping music source
  scaled by a `GainNode` (which multiplies by `gain.value`) and summed at
  the destination — is transcribed.
-/

/-- JavaScript `|0` (ToInt32) applied to an in-range rational: truncation
toward zero. -/
def jsTrunc (q : ℚ) : ℤ := if 0 ≤ q then ⌊q⌋ else ⌈q⌉

/-- `DataView.setUint16(_, n, true)`: two little-endian bytes. -/
def u16le (n : ℕ) : List ℕ := [n % 256, n / 256 % 256]

/-- `DataView.setUint32(_, n, true)`: four little-endian bytes. -/
def u32le (n : ℕ) : List ℕ :=
  [n % 256, n / 256 % 256, n / 65536 % 256, n / 16777216 % 256]

/-- `DataView.setInt16(_, z, true)`: wrap to 16 bits two's complement,
then two little-endian bytes. -/
def i16le (z : ℤ) : List ℕ := u16le (z % 65536).toNat

/-- An `Int16Array` element read from two little-endian bytes. -/
def int16FromBytes (b0 b1 : ℕ) : ℤ :=
  let u : ℤ := (b0 % 256 : ℕ) + 256 * ((b1 % 256 : ℕ) : ℤ)
  if u < 32768 then u else u - 65536

/-- A Web Audio `AudioBuffer`: per-channel float sample data plus the
metadata fields the code reads (`numberOfChannels`, `length` in frames,
`sampleRate`). -/
structure AudioBuffer where
  numberOfChannels : ℕ
  length : ℕ
  sampleRate : ℕ
  channels : List (List ℚ)
deriving DecidableEq

/-- `AudioBuffer.duration = length / sampleRate` (Web Audio). -/
def AudioBuffer.duration (b : AudioBuffer) : ℚ := (b.length : ℚ) / b.sampleRate

/-- `getChannelData(ch)[pos]`, with missing data read as `0`. -/
def AudioBuffer.sampleAt (b : AudioBuffer) (ch pos : ℕ) : ℚ :=
  (b.channels.getD ch []).getD pos 0

/-- `pcmToAudioBuffer` (audio utils): interpret the byte buffer as
little-endian signed 16-bit mono PCM.  `evenByteLength` drops a trailing
odd byte; the `Int16Array` view holds `evenByteLength / 2` samples; each
is divided by `32768.0`; the result is written into a fresh mono buffer
created by `ctx.createBuffer(1, sampleCount, sampleRate)`, which rejects
a zero-length buffer with `NotSupportedError`. -/
def pcmToAudioBuffer (bytes : List ℕ) (sampleRate : ℕ := 24000) :
    Except String AudioBuffer :=
  let byteLength := bytes.length
  let evenByteLength := byteLength - byteLength % 2
  let sampleCount := evenByteLength / 2
  let float32Array := (List.range sampleCount).map
    (fun i => (int16FromBytes (bytes.getD (2 * i) 0) (bytes.getD (2 * i + 1) 0) : ℚ) / 32768)
  if sampleCount = 0 then Except.error "NotSupportedError"
  else Except.ok
    { numberOfChannels := 1
      length := sampleCount
      sampleRate := sampleRate
      channels := [float32Array] }

/-- The clamp in `bufferToWav`: `Math.max(-1, Math.min(1, s))`. -/
def clampUnit (s : ℚ) : ℚ := max (-1) (min 1 s)

/-- The per-sample quantizer in `bufferToWav`, transcribed with the
source's operator precedence:
`sample = (0.5 + sample < 0 ? sample * 32768 : sample * 32767)|0`
after clamping — the branch condition is `(0.5 + sample) < 0`. -/
def quantizeSample (s : ℚ) : ℤ :=
  let c := clampUnit s
  if 1 / 2 + c < 0 then jsTrunc (c * 32768) else jsTrunc (c * 32767)

/-- The 44-byte header written by `bufferToWav`.  The helper functions
`setUint16`/`setUint32` advance the write cursor `offset`; the separate
variable `pos` is still `0` when the data sub-chunk size field
`length - pos - 4` is written. -/
def wavHeader (b : AudioBuffer) : List ℕ :=
  let numOfChan := b.numberOfChannels
  let length := b.length * numOfChan * 2 + 44
  u32le 0x46464952 ++          -- "RIFF"
  u32le (length - 8) ++        -- file length - 8
  u32le 0x45564157 ++          -- "WAVE"
  u32le 0x20746d66 ++          -- "fmt " chunk
  u32le 16 ++                  -- fmt chunk length
  u16le 1 ++                   -- PCM (uncompressed)
  u16le numOfChan ++
  u32le b.sampleRate ++
  u32le (b.sampleRate * 2 * numOfChan) ++  -- avg. bytes/sec
  u16le (numOfChan * 2) ++     -- block-align
  u16le 16 ++                  -- 16-bit
  u32le 0x61746164 ++          -- "data" chunk
  u32le (length - 0 - 4)       -- chunk length field: length - pos - 4 with pos = 0

/-- The interleaved sample data written by `bufferToWav`: frame by frame,
channel by channel, each sample clamped, quantized and written as a
little-endian signed 16-bit value. -/
def wavData (b : AudioBuffer) : List ℕ :=
  (List.range b.length).flatMap (fun pos =>
    (List.range b.numberOfChannels).flatMap (fun i =>
      i16le (quantizeSample (b.sampleAt i pos))))

/-- `bufferToWav`: WAV header followed by the interleaved data. -/
def bufferToWav (b : AudioBuffer) : List ℕ := wavHeader b ++ wavData b

/-- The frame count of the offline mix context:
`new OfflineAudioContext(2, sampleRate * duration, sampleRate)` with
`sampleRate = 44100`; the WebIDL `unsigned long` conversion truncates the
non-negative product, i.e. takes its floor. -/
def mixFrameCount (voiceBuffer : AudioBuffer) : ℕ :=
  ⌊(44100 : ℚ) * voiceBuffer.duration⌋₊

/-- The buffer produced by `offlineCtx.startRendering()` in
`mixAudioAndExport`: 2 channels, 44100 Hz, `mixFrameCount` frames.  Each
output sample is the voice source's contribution plus, when a music
buffer exists, the looping music source's contribution scaled by the
gain node's `volume`; with no music buffer no music source or gain node
is created and the `volume` argument is never read. -/
def renderMix (render : AudioBuffer → Bool → ℕ → ℕ → ℚ)
    (voiceBuffer : AudioBuffer) (musicBuffer : Option AudioBuffer)
    (volume : ℚ) : AudioBuffer :=
  let len := mixFrameCount voiceBuffer
  { numberOfChannels := 2
    length := len
    sampleRate := 44100
    channels := (List.range 2).map (fun ch => (List.range len).map (fun i =>
      render voiceBuffer false ch i +
        match musicBuffer with
        | some m => volume * render m true ch i
        | none => 0)) }

/-- `mixAudioAndExport`: render the offline mix, then encode it with
`bufferToWav`.  The returned byte list is the content of the WAV blob. -/
def mixAudioAndExport (render : AudioBuffer → Bool → ℕ → ℕ → ℚ)
    (voiceBuffer : AudioBuffer) (musicBuffer : Option AudioBuffer)
    (volume : ℚ) : List ℕ :=
  bufferToWav (renderMix render voiceBuffer musicBuffer volume)

/-- JavaScript `String.prototype.split` with a single-character
separator, on character lists: splitting at every separator occurrence,
keeping empty pieces; the empty string yields one empty piece. -/
def splitOnPred (p : Char → Bool) : List Char → List (List Char)
  | [] => [[]]
  | c :: rest =>
    match splitOnPred p rest with
    | [] => [[c]]
    | w :: ws => if p c then [] :: w :: ws else (c :: w) :: ws

/-- `script.split(' ')` in `drawFrame`: the caption word list. -/
def spaceWords (script : List Char) : List (List Char) :=
  splitOnPred (fun c => c = ' ') script

/-- `Array.prototype.join(' ')` on character-list words. -/
def joinSpace : List (List Char) → List Char
  | [] => []
  | [w] => w
  | w :: ws => w ++ ' ' :: joinSpace ws

/-- `Array.prototype.slice(start, stop)` with integer arguments:
negative indices count from the end, indices are clamped to
`[0, length]`, and the extracted range is `[start, stop)`. -/
def jsSlice {α : Type} (xs : List α) (start fin : ℤ) : List α :=
  let len : ℤ := xs.length
  let s := if start < 0 then max (len + start) 0 else min start len
  let e := if fin < 0 then max (len + fin) 0 else min fin len
  (xs.drop s.toNat).take (e - s).toNat

/-- `progress = Math.min(time / duration, 1)` in `drawFrame`. -/
def captionProgress (time duration : ℚ) : ℚ := min (time / duration) 1

/-- `totalScreens = Math.ceil(words.length / wordsPerScreen)` with
`wordsPerScreen = 8`. -/
def captionChunkCount (script : List Char) : ℕ :=
  ⌈((spaceWords script).length : ℚ) / 8⌉₊

/-- `currentScreen = Math.floor(progress * totalScreens)`. -/
def captionChunkIndex (time duration : ℚ) (script : List Char) : ℤ :=
  ⌊captionProgress time duration * captionChunkCount script⌋

/-- The caption selection of `drawFrame`: `startWord = currentScreen *
wordsPerScreen`, `visibleWords = words.slice(startWord, startWord +
wordsPerScreen).join(' ')`, drawn only when `visibleWords` is truthy
(a non-empty string). -/
def drawFrameCaption (time duration : ℚ) (script : List Char) :
    Option (List Char) :=
  let startWord : ℤ := captionChunkIndex time duration script * 8
  let visibleWords := joinSpace (jsSlice (spaceWords script) startWord (startWord + 8))
  if visibleWords = [] then none else some visibleWords

/-- Claim-side caption rule, written from the specification's words for
a given word-splitting convention `wordsOf`: group the words into chunks
of 8; show the chunk of index `floor(progress × chunk_count)` with
`progress = min(elapsed/duration, 1)` and `chunk_count =
ceil(wordCount/8)`, joined by single spaces; an empty chunk renders
nothing. -/
def captionSpec (wordsOf : List Char → List (List Char))
    (time duration : ℚ) (script : List Char) : Option (List Char) :=
  let words := wordsOf script
  let chunkCount : ℕ := ⌈(words.length : ℚ) / 8⌉₊
  let idx : ℤ := ⌊min (time / duration) 1 * chunkCount⌋
  let chunk := (words.drop (8 * idx.toNat)).take 8
  let text := joinSpace chunk
  if text = [] then none else some text

/-- Whitespace-delimited words of a script (the claim's wording):
maximal runs of non-whitespace characters. -/
def whitespaceWords (script : List Char) : List (List Char) :=
  (splitOnPred Char.isWhitespace script).filter (fun w => w ≠ [])

/-- Status of a platform audio context: the platform may suspend an
idle context; `resume()` moves it back to running. -/
inductive CtxStatus where
  | running
  | suspended
deriving DecidableEq

/-- A process-level audio-engine handle (an `AudioContext` object),
identified by creation order. -/
structure Handle where
  id : ℕ
  status : CtxStatus
deriving DecidableEq

/-- Process-wide state for the audio-context lifecycle: the audio-utils
module variable `sharedAudioContext`, the `VideoPreview` component ref
`audioContextRef`, a fresh-id counter, and the list of ids of every
engine handle ever constructed (every evaluation of
`new AudioContext()`). -/
structure EngineProc where
  sharedAudioContext : Option Handle
  audioContextRef : Option Handle
  nextId : ℕ
  createdIds : List ℕ
deriving DecidableEq

/-- `new (window.AudioContext || window.webkitAudioContext)()`: construct
a fresh handle and record its creation. -/
def newAudioContext (s : EngineProc) : Handle × EngineProc :=
  (⟨s.nextId, CtxStatus.running⟩,
   { s with nextId := s.nextId + 1, createdIds := s.createdIds ++ [s.nextId] })

/-- `getSharedAudioContext` (audio utils): create the module-level
context if absent, resume it if suspended, and return it. -/
def getSharedAudioContext (s : EngineProc) : Handle × EngineProc :=
  match s.sharedAudioContext with
  | none =>
    let r := newAudioContext s
    (r.1, { r.2 with sharedAudioContext := some r.1 })
  | some h =>
    match h.status with
    | CtxStatus.suspended =>
      (⟨h.id, CtxStatus.running⟩,
       { s with sharedAudioContext := some ⟨h.id, CtxStatus.running⟩ })
    | CtxStatus.running => (h, s)

/-- `VideoPreview.play`, context part: create `audioContextRef.current`
if absent, resume it if suspended. -/
def videoPlayCtx (s : EngineProc) : Handle × EngineProc :=
  match s.audioContextRef with
  | none =>
    let r := newAudioContext s
    (r.1, { r.2 with audioContextRef := some r.1 })
  | some h =>
    match h.status with
    | CtxStatus.suspended =>
      (⟨h.id, CtxStatus.running⟩,
       { s with audioContextRef := some ⟨h.id, CtxStatus.running⟩ })
    | CtxStatus.running => (h, s)

/-- The operations that touch an audio-engine handle: the audio-utils
entry points (`pcmToAudioBuffer`, `decodeAudioFile`, `playPreview`) all
call `getSharedAudioContext`; `VideoPreview.play` uses the component's
own `audioContextRef`; the platform may suspend either idle context. -/
inductive EngineOp where
  | decodeVoice
  | decodeFile
  | playPreviewOp
  | videoPlay
  | platformSuspendShared
  | platformSuspendVideo
deriving DecidableEq

/-- One step of the process-wide audio-context state machine. -/
def engineStep (s : EngineProc) : EngineOp → EngineProc
  | EngineOp.decodeVoice => (getSharedAudioContext s).2
  | EngineOp.decodeFile => (getSharedAudioContext s).2
  | EngineOp.playPreviewOp => (getSharedAudioContext s).2
  | EngineOp.videoPlay => (videoPlayCtx s).2
  | EngineOp.platformSuspendShared =>
    { s with sharedAudioContext :=
        s.sharedAudioContext.map (fun h => ⟨h.id, CtxStatus.suspended⟩) }
  | EngineOp.platformSuspendVideo =>
    { s with audioContextRef :=
        s.audioContextRef.map (fun h => ⟨h.id, CtxStatus.suspended⟩) }

/-- Run a sequence of operations from a state. -/
def engineRun (s : EngineProc) (ops : List EngineOp) : EngineProc :=
  ops.foldl engineStep s

/-- Initial process state: no context exists yet. -/
def engineInit : EngineProc := ⟨none, none, 0, []⟩

/-- Whether an operation goes through `getSharedAudioContext`. -/
def usesShared : EngineOp → Bool
  | EngineOp.decodeVoice => true
  | EngineOp.decodeFile => true
  | EngineOp.playPreviewOp => true
  | _ => false

namespace VideoPreview

/-- An `AudioBufferSourceNode` as seen by `stop`: only whether it has
already been stopped matters. -/
structure SourceNode where
  stopped : Bool
deriving DecidableEq

/-- `source.stop()`: the platform throws `InvalidStateError` when the
node was already stopped. -/
def sourceStop (n : SourceNode) : Except String SourceNode :=
  if n.stopped then Except.error "InvalidStateError"
  else Except.ok ⟨true⟩

/-- The `VideoPreview` session state read and written by `stop`:
the three node refs, the animation-frame id ref (`0` is falsy) and
whether a scheduled animation callback is pending, the `isPlaying`
flag, the time of the frame currently shown by the renderer (`none`
when nothing was ever drawn), and whether the canvas and the image
element exist (`drawFrame` returns without drawing when either is
missing). -/
structure PreviewState where
  voiceSource : Option SourceNode
  musicSource : Option SourceNode
  gainNode : Option Bool
  animId : ℕ
  animActive : Bool
  isPlaying : Bool
  shownFrameTime : Option ℚ
  hasCanvas : Bool
  hasImage : Bool
deriving DecidableEq

/-- `drawFrame(time)`, state part: draw the frame for `time` unless the
canvas or the image is missing. -/
def drawFrame (time : ℚ) (s : PreviewState) : PreviewState :=
  if s.hasCanvas && s.hasImage then { s with shownFrameTime := some time } else s

/-- `try { source.stop(); source.disconnect(); } catch (e) { ignore }`:
run the fallible platform call and swallow its error locally, reporting
the swallowed error (if any) instead of raising it. -/
def tryStopDisconnect (n : SourceNode) : Option String :=
  match sourceStop n with
  | Except.ok _ => none
  | Except.error e => some e

/-- `stop()` transcribed: for each of the two source refs, if present,
`try { stop(); disconnect(); } catch (e) { /* ignore */ }` and null the
ref; disconnect and null the gain ref under its own try/catch; cancel
the animation frame when the id ref is truthy; clear `isPlaying`; draw
frame 0.  An uncaught platform exception would surface as
`Except.error`; every fallible call is wrapped by `tryStopDisconnect`,
so the result is always `Except.ok`. -/
def stop (s : PreviewState) : Except String PreviewState :=
  let s1 := match s.voiceSource with
    | some n =>
      let _swallowed1 := tryStopDisconnect n
      { s with voiceSource := none }
    | none => s
  let s2 := match s1.musicSource with
    | some n =>
      let _swallowed2 := tryStopDisconnect n
      { s1 with musicSource := none }
    | none => s1
  let s3 := match s2.gainNode with
    | some _ => { s2 with gainNode := none }
    | none => s2
  let s4 := if s3.animId ≠ 0 then { s3 with animActive := false } else s3
  let s5 := { s4 with isPlaying := false }
  Except.ok (drawFrame 0 s5)

end VideoPreview

/-- Claim-side quantizer, as the claim words it: after clamping, scale
by 32768 exactly when the clamped value is negative, otherwise by 32767,
then truncate to an integer. -/
def quantizeClaimNeg (s : ℚ) : ℤ :=
  let c := clampUnit s
  if c < 0 then jsTrunc (c * 32768) else jsTrunc (c * 32767)

/-- Amended-claim quantizer: after clamping, scale by 32768 exactly when
the clamped value is below `-1/2`, otherwise by 32767, then truncate
toward zero. -/
def quantizeBelowHalf (s : ℚ) : ℤ :=
  let c := clampUnit s
  if c < -(1 / 2) then jsTrunc (c * 32768) else jsTrunc (c * 32767)

/-- Little-endian 16-bit field of a serialized WAV byte stream, as a
decoder of the container reads it. -/
def wavReadU16 (bytes : List ℕ) (off : ℕ) : ℕ :=
  bytes.getD off 0 + 256 * bytes.getD (off + 1) 0

/-- Little-endian 32-bit field of a serialized WAV byte stream. -/
def wavReadU32 (bytes : List ℕ) (off : ℕ) : ℕ :=
  wavReadU16 bytes off + 65536 * wavReadU16 bytes (off + 2)

/-- The round-trip scenario's voice: 2 seconds of mono audio at
24000 Hz (48000 samples). -/
def voiceTwoSeconds : AudioBuffer := ⟨1, 48000, 24000, [List.replicate 48000 0]⟩

/-- The round-trip scenario's music: 1 second of mono audio at 44100 Hz. -/
def musicOneSecond : AudioBuffer := ⟨1, 44100, 44100, [List.replicate 44100 0]⟩

/-- A concrete platform renderer (everything renders as silence), used to
instantiate the abstract `render` parameter in closed statements. -/
def silentRender : AudioBuffer → Bool → ℕ → ℕ → ℚ := fun _ _ _ _ => 0

/-- A one-sample mono voice buffer at 24000 Hz: its duration is
1/24000 s, so `44100 × duration = 1.8375` frames. -/
def voiceOneSample : AudioBuffer := ⟨1, 1, 24000, [[0]]⟩

/-- A one-sample mono buffer whose sample is `-1/4`: clamped value is
negative but not below `-1/2`. -/
def negQuarterBuffer : AudioBuffer := ⟨1, 1, 44100, [[-(1 / 4)]]⟩

/-- The caption scenario's 16-word script. -/
def scenarioScript : List Char := "a b c d e f g h i j k l m n o p".toList

/-- A script whose first two words are separated by a newline: nine
whitespace-delimited words, but eight `split(' ')` words. -/
def newlineScript : List Char := "a\nb c d e f g h i".toList

/-- The canonical result of `VideoPreview.stop`: both source refs and the
gain ref nulled, the animation callback cancelled when the id ref was
truthy, `isPlaying` cleared, and frame 0 drawn when the renderer has a
canvas and an image. -/
def VideoPreview.stopPure (s : VideoPreview.PreviewState) : VideoPreview.PreviewState :=
  { s with voiceSource := none
           musicSource := none
           gainNode := none
           animActive := if s.animId ≠ 0 then false else s.animActive
           isPlaying := false
           shownFrameTime := if s.hasCanvas && s.hasImage then some 0 else s.shownFrameTime }

/-- A concrete mid-playback preview state: both sources live (the voice
node already stopped by the platform), gain connected, a pending
animation callback with id 7, playing, currently showing the frame for
time 3. -/
def previewSample : VideoPreview.PreviewState :=
  ⟨some ⟨true⟩, some ⟨false⟩, some true, 7, true, true, some 3, true, true⟩

/-! ## Helper lemmas -/

theorem quantizeSample_eq_quantizeBelowHalf (s : ℚ) :
    quantizeSample s = quantizeBelowHalf s := by
  unfold quantizeSample quantizeBelowHalf
  have h : (1 / 2 + clampUnit s < 0) ↔ clampUnit s < -(1 / 2) := by
    constructor <;> intro h <;> linarith
  exact if_congr h rfl rfl

theorem wavHeader_length (b : AudioBuffer) : (wavHeader b).length = 44 := by
  simp [wavHeader, u32le, u16le]

theorem bufferToWav_getD_header (b : AudioBuffer) (n : ℕ) (h : n < 44) :
    (bufferToWav b).getD n 0 = (wavHeader b).getD n 0 := by
  unfold bufferToWav
  exact List.getD_append _ _ _ _ (by rw [wavHeader_length]; exact h)

theorem wavHeader_congr (b b2 : AudioBuffer)
    (h1 : b.numberOfChannels = b2.numberOfChannels)
    (h2 : b.length = b2.length) (h3 : b.sampleRate = b2.sampleRate) :
    wavHeader b = wavHeader b2 := by
  unfold wavHeader
  rw [h1, h2, h3]

theorem mixFrameCount_eq_div (v : AudioBuffer) :
    mixFrameCount v = 44100 * v.length / v.sampleRate := by
  unfold mixFrameCount AudioBuffer.duration
  rw [show (44100 : ℚ) * ((v.length : ℚ) / (v.sampleRate : ℕ)) =
      ((44100 * v.length : ℕ) : ℚ) / (v.sampleRate : ℕ) by push_cast; ring]
  rw [Nat.floor_div_nat, Nat.floor_natCast]

theorem clampUnit_negQuarter : clampUnit (-(1 / 4)) = -(1 / 4) := by
  unfold clampUnit
  rw [min_eq_right (by norm_num), max_eq_right (by norm_num)]

theorem quantizeSample_negQuarter : quantizeSample (-(1 / 4)) = -8191 := by
  unfold quantizeSample
  rw [clampUnit_negQuarter, if_neg (by norm_num)]
  unfold jsTrunc
  rw [if_neg (by norm_num)]
  rw [show (-(1 / 4) : ℚ) * 32767 = -32767 / 4 by ring]
  norm_num [Int.ceil_eq_iff]

theorem quantizeClaimNeg_negQuarter : quantizeClaimNeg (-(1 / 4)) = -8192 := by
  unfold quantizeClaimNeg
  rw [clampUnit_negQuarter, if_pos (by norm_num)]
  unfold jsTrunc
  rw [if_neg (by norm_num)]
  rw [show (-(1 / 4) : ℚ) * 32768 = ((-8192 : ℤ) : ℚ) by norm_num]
  exact Int.ceil_intCast (-8192)

theorem wavData_negQuarter : wavData negQuarterBuffer = [1, 224] := by
  have hs : negQuarterBuffer.sampleAt 0 0 = -(1 / 4) := rfl
  have hq : quantizeSample (negQuarterBuffer.sampleAt 0 0) = -8191 := by
    rw [hs]
    exact quantizeSample_negQuarter
  have hrange : wavData negQuarterBuffer =
      i16le (quantizeSample (negQuarterBuffer.sampleAt 0 0)) ++ [] := by
    simp [wavData, negQuarterBuffer, List.range_succ]
  rw [hrange, hq]
  decide

/-! ## Claim theorems -/

/-- C1 (amended): for every rendered buffer, `bufferToWav` emits the
header followed by the samples frame by frame, channel-interleaved, each
clamped to [-1, 1], scaled by 32768 exactly when the clamped value is
less than -0.5 and by 32767 otherwise, truncated toward zero, and
written as a little-endian signed 16-bit value. -/
theorem C1_wav_quantization (b : AudioBuffer) :
    bufferToWav b = wavHeader b ++ (List.range b.length).flatMap (fun pos =>
      (List.range b.numberOfChannels).flatMap (fun ch =>
        i16le (quantizeBelowHalf (b.sampleAt ch pos)))) := by
  unfold bufferToWav wavData
  simp [quantizeSample_eq_quantizeBelowHalf]

/-- C1 counterexample: for the one-sample mono buffer holding `-1/4`
(clamped value negative but not below `-1/2`), the encoder writes the
bytes of `-8191` (`-1/4 × 32767` truncated), not the claim's
`-8192 = -1/4 × 32768`. -/
theorem C1_counterexample :
    bufferToWav negQuarterBuffer = wavHeader negQuarterBuffer ++ [1, 224] ∧
    i16le (quantizeClaimNeg (-(1 / 4))) = [0, 224] ∧
    bufferToWav negQuarterBuffer ≠
      wavHeader negQuarterBuffer ++ i16le (quantizeClaimNeg (-(1 / 4))) := by
  have h1 : bufferToWav negQuarterBuffer = wavHeader negQuarterBuffer ++ [1, 224] := by
    unfold bufferToWav
    rw [wavData_negQuarter]
  have h2 : i16le (quantizeClaimNeg (-(1 / 4))) = [0, 224] := by
    rw [quantizeClaimNeg_negQuarter]
    decide
  refine ⟨h1, h2, ?_⟩
  rw [h1, h2]
  intro heq
  have h3 := List.append_cancel_left heq
  simp at h3

/-- C2 (amended): mixdown output always has 2 channels and a 44100 Hz
sample rate; its frame count is `floor(voice.duration × 44100)` (the
truncated, not rounded-up, product), which equals
`44100 × voice.length / voice.sampleRate` in integer division and is
independent of the music argument and the gain. -/
theorem C2_mixdown_length (render : AudioBuffer → Bool → ℕ → ℕ → ℚ)
    (voice : AudioBuffer) (music : Option AudioBuffer) (volume : ℚ) :
    (renderMix render voice music volume).numberOfChannels = 2 ∧
    (renderMix render voice music volume).sampleRate = 44100 ∧
    (renderMix render voice music volume).length = ⌊voice.duration * (44100 : ℚ)⌋₊ ∧
    (renderMix render voice music volume).length = 44100 * voice.length / voice.sampleRate ∧
    ∀ m2 v2, (renderMix render voice m2 v2).length =
      (renderMix render voice music volume).length := by
  refine ⟨rfl, rfl, ?_, mixFrameCount_eq_div voice, fun _ _ => rfl⟩
  show mixFrameCount voice = _
  unfold mixFrameCount
  rw [mul_comm]

/-- C2 counterexample: a one-sample 24000 Hz voice has duration 1/24000,
so `voice.duration × 44100 = 1.8375`; the code renders 1 frame while the
claim's `ceil` (and the spec's `round`) prescribe 2. -/
theorem C2_counterexample :
    (renderMix silentRender voiceOneSample none 0).length = 1 ∧
    ⌈AudioBuffer.duration voiceOneSample * (44100 : ℚ)⌉₊ = 2 ∧
    round (AudioBuffer.duration voiceOneSample * (44100 : ℚ)) = 2 ∧
    (renderMix silentRender voiceOneSample none 0).length ≠
      ⌈AudioBuffer.duration voiceOneSample * (44100 : ℚ)⌉₊ := by
  have hd : AudioBuffer.duration voiceOneSample = 1 / 24000 := by
    simp [AudioBuffer.duration, voiceOneSample]
  have hlen : (renderMix silentRender voiceOneSample none 0).length = 1 := by
    show mixFrameCount voiceOneSample = 1
    unfold mixFrameCount
    rw [hd]
    norm_num [Nat.floor_eq_iff]
  have hceil : (⌈(1 / 24000 : ℚ) * 44100⌉₊ : ℕ) = 2 := by
    norm_num [Nat.ceil_eq_iff]
  refine ⟨hlen, ?_, ?_, ?_⟩
  · rw [hd]
    exact hceil
  · rw [hd]
    norm_num [round_eq, Int.floor_eq_iff]
  · rw [hlen, hd, hceil]
    decide

/-- C3 (amended): for every input of at least 2 bytes, `pcmToAudioBuffer`
returns a mono buffer of `floor(byteLength/2)` little-endian signed
16-bit samples each divided by 32768, with duration
`sampleCount/sampleRate`; inputs with fewer than 2 bytes (including the
odd case `k = 0`) are rejected by the platform's zero-length
`createBuffer`. -/
theorem C3_pcm_decoding (bytes : List ℕ) (sr : ℕ) (h : 2 ≤ bytes.length) :
    pcmToAudioBuffer bytes sr = Except.ok
      { numberOfChannels := 1
        length := bytes.length / 2
        sampleRate := sr
        channels := [(List.range (bytes.length / 2)).map (fun i =>
          (int16FromBytes (bytes.getD (2 * i) 0) (bytes.getD (2 * i + 1) 0) : ℚ) / 32768)] } ∧
    ∀ b, pcmToAudioBuffer bytes sr = Except.ok b →
      b.duration = ((bytes.length / 2 : ℕ) : ℚ) / (sr : ℚ) := by
  have hcount : (bytes.length - bytes.length % 2) / 2 = bytes.length / 2 := by omega
  have hne : ¬ bytes.length / 2 = 0 := by omega
  have hmain : pcmToAudioBuffer bytes sr = Except.ok
      { numberOfChannels := 1
        length := bytes.length / 2
        sampleRate := sr
        channels := [(List.range (bytes.length / 2)).map (fun i =>
          (int16FromBytes (bytes.getD (2 * i) 0) (bytes.getD (2 * i + 1) 0) : ℚ) / 32768)] } := by
    simp only [pcmToAudioBuffer]
    rw [hcount, if_neg hne]
  refine ⟨hmain, fun b hb => ?_⟩
  rw [hmain] at hb
  cases hb
  simp [AudioBuffer.duration]

theorem C3_pcm_decoding_witness :
    2 ≤ ([52, 18, 255] : List ℕ).length ∧
    pcmToAudioBuffer [52, 18, 255] 24000 = Except.ok
      { numberOfChannels := 1
        length := ([52, 18, 255] : List ℕ).length / 2
        sampleRate := 24000
        channels := [(List.range (([52, 18, 255] : List ℕ).length / 2)).map (fun i =>
          (int16FromBytes (([52, 18, 255] : List ℕ).getD (2 * i) 0)
            (([52, 18, 255] : List ℕ).getD (2 * i + 1) 0) : ℚ) / 32768)] } :=
  ⟨by decide, (C3_pcm_decoding [52, 18, 255] 24000 (by decide)).1⟩

/-- C3 counterexample: the odd-length input of 1 byte (`k = 0`) does not
yield a 0-sample buffer; the zero-length `createBuffer` call throws, so
the function does not succeed as the claim states. -/
theorem C3_counterexample :
    pcmToAudioBuffer [0] 24000 = Except.error "NotSupportedError" := rfl

/-- C6 (amended): `pcmToAudioBuffer` fails exactly when the input has
fewer than 2 bytes — both the empty input and a 1-byte input lead to a
zero-length buffer, which the platform's `createBuffer` rejects; every
input of at least 2 bytes succeeds.  (No `MalformedAudioData` error
exists in the code.) -/
theorem C6_failure_condition (bytes : List ℕ) (sr : ℕ) :
    (pcmToAudioBuffer bytes sr).toOption = none ↔ bytes.length < 2 := by
  have hcond : (bytes.length - bytes.length % 2) / 2 = 0 ↔ bytes.length < 2 := by omega
  simp only [pcmToAudioBuffer]
  by_cases h : bytes.length < 2
  · rw [if_pos (hcond.mpr h)]
    simp [Except.toOption, h]
  · rw [if_neg (fun hc => h (hcond.mp hc))]
    simp [Except.toOption, h]

/-- C6 counterexample: `[5]` is a non-empty input, yet the call fails
(the zero-length buffer is rejected), contradicting "for every non-empty
input it succeeds". -/
theorem C6_counterexample :
    ([5] : List ℕ) ≠ [] ∧
    pcmToAudioBuffer [5] 24000 = Except.error "NotSupportedError" :=
  ⟨by decide, rfl⟩

/-- C9 (confirmed): with no music buffer, the gain argument is never
read, so mixdown output is byte-identical for any two gain values. -/
theorem C9_gain_without_music (render : AudioBuffer → Bool → ℕ → ℕ → ℚ)
    (voice : AudioBuffer) (g1 g2 : ℚ) :
    mixAudioAndExport render voice none g1 = mixAudioAndExport render voice none g2 := rfl

theorem mixFrameCount_voiceTwoSeconds : mixFrameCount voiceTwoSeconds = 88200 := by
  rw [mixFrameCount_eq_div]
  decide

/-- C5 (code bug): in the round-trip scenario (2-second 24000 Hz mono
voice, 1-second looping music), mixdown does render 88200 stereo frames
and the header reports sampleRate 44100, 2 channels and 16 bits per
sample — but the `data` sub-chunk size field holds
`88200×2×2 + 40 = 352840` instead of the data byte count `352800`: the
source computes the field as `length - pos - 4` using the sample-loop
counter `pos`, still 0 at header-writing time, where the original
encoder used the header write position (44 at that point). -/
theorem C5_wav_header_bug :
    (renderMix silentRender voiceTwoSeconds (some musicOneSecond) (1 / 4)).length = 88200 ∧
    (renderMix silentRender voiceTwoSeconds (some musicOneSecond) (1 / 4)).numberOfChannels = 2 ∧
    wavReadU32 (mixAudioAndExport silentRender voiceTwoSeconds (some musicOneSecond) (1 / 4)) 24 = 44100 ∧
    wavReadU16 (mixAudioAndExport silentRender voiceTwoSeconds (some musicOneSecond) (1 / 4)) 22 = 2 ∧
    wavReadU16 (mixAudioAndExport silentRender voiceTwoSeconds (some musicOneSecond) (1 / 4)) 34 = 16 ∧
    wavReadU32 (mixAudioAndExport silentRender voiceTwoSeconds (some musicOneSecond) (1 / 4)) 40 =
      88200 * 2 * 2 + 40 ∧
    wavReadU32 (mixAudioAndExport silentRender voiceTwoSeconds (some musicOneSecond) (1 / 4)) 40 ≠
      88200 * 2 * 2 := by
  have hlen : (renderMix silentRender voiceTwoSeconds (some musicOneSecond) (1 / 4)).length = 88200 :=
    mixFrameCount_voiceTwoSeconds
  have hhdr : wavHeader (renderMix silentRender voiceTwoSeconds (some musicOneSecond) (1 / 4)) =
      wavHeader (AudioBuffer.mk 2 88200 44100 []) :=
    wavHeader_congr _ _ rfl hlen rfl
  have hread : ∀ n, n < 44 →
      (mixAudioAndExport silentRender voiceTwoSeconds (some musicOneSecond) (1 / 4)).getD n 0 =
      (wavHeader (AudioBuffer.mk 2 88200 44100 [])).getD n 0 := by
    intro n hn
    show (bufferToWav (renderMix silentRender voiceTwoSeconds (some musicOneSecond) (1 / 4))).getD n 0 = _
    rw [bufferToWav_getD_header _ n hn, hhdr]
  refine ⟨hlen, rfl, ?_, ?_, ?_, ?_, ?_⟩
  · unfold wavReadU32 wavReadU16
    rw [hread 24 (by omega), hread 25 (by omega), hread 26 (by omega), hread 27 (by omega)]
    decide
  · unfold wavReadU16
    rw [hread 22 (by omega), hread 23 (by omega)]
    decide
  · unfold wavReadU16
    rw [hread 34 (by omega), hread 35 (by omega)]
    decide
  · unfold wavReadU32 wavReadU16
    rw [hread 40 (by omega), hread 41 (by omega), hread 42 (by omega), hread 43 (by omega)]
    decide
  · unfold wavReadU32 wavReadU16
    rw [hread 40 (by omega), hread 41 (by omega), hread 42 (by omega), hread 43 (by omega)]
    decide

theorem jsSlice_start_ge {α : Type} (xs : List α) (start fin : ℤ)
    (h : (xs.length : ℤ) ≤ start) : jsSlice xs start fin = [] := by
  have h0 : ¬ start < 0 := not_lt.mpr (le_trans (Int.natCast_nonneg _) h)
  simp only [jsSlice]
  rw [if_neg h0, min_eq_right h]
  simp

theorem jsSlice_nonneg {α : Type} (xs : List α) (start fin : ℤ) (k : ℕ)
    (h : 0 ≤ start) (hf : fin = start + k) :
    jsSlice xs start fin = (xs.drop start.toNat).take k := by
  subst hf
  simp only [jsSlice]
  rw [if_neg (not_lt.mpr h), if_neg (by omega : ¬ start + (k : ℤ) < 0)]
  rcases le_or_lt start (xs.length : ℤ) with hle | hlt
  · rw [min_eq_left hle]
    rcases le_total (start + (k : ℤ)) (xs.length : ℤ) with h2 | h2
    · rw [min_eq_left h2]
      rw [show (start + (k : ℤ) - start).toNat = k by omega]
    · rw [min_eq_right h2]
      calc ((xs.drop start.toNat).take ((xs.length : ℤ) - start).toNat)
          = xs.drop start.toNat := by
            apply List.take_of_length_le
            simp [List.length_drop]
            omega
        _ = (xs.drop start.toNat).take k := by
            refine (List.take_of_length_le ?_).symm
            simp [List.length_drop]
            omega
  · rw [min_eq_right (le_of_lt hlt), min_eq_right (by omega : (xs.length : ℤ) ≤ start + k)]
    have hd : xs.drop start.toNat = [] := List.drop_eq_nil_of_le (by omega)
    rw [Int.toNat_natCast, List.drop_length, hd]
    simp

/-- C10 (confirmed): once elapsed time reaches the voice duration,
`progress = 1`, the computed chunk index equals the total chunk count
(one past the last chunk), the slice is empty, and no caption is drawn:
the script's last words disappear in the final frames. -/
theorem C10_final_frame_no_caption (t D : ℚ) (script : List Char)
    (h0 : 0 < D) (h1 : D ≤ t) (hw : whitespaceWords script ≠ []) :
    captionChunkIndex t D script = captionChunkCount script ∧
    drawFrameCaption t D script = none := by
  have hp : captionProgress t D = 1 := by
    unfold captionProgress
    rw [min_eq_right ((le_div_iff h0).mpr (by linarith))]
  have hidx : captionChunkIndex t D script = captionChunkCount script := by
    unfold captionChunkIndex
    rw [hp, one_mul, Int.floor_natCast]
  refine ⟨hidx, ?_⟩
  simp only [drawFrameCaption]
  rw [hidx]
  have hL : ((spaceWords script).length : ℤ) ≤ (captionChunkCount script : ℤ) * 8 := by
    have hle := Nat.le_ceil (((spaceWords script).length : ℚ) / 8)
    have h8 : ((spaceWords script).length : ℚ) ≤ (captionChunkCount script : ℚ) * 8 := by
      unfold captionChunkCount
      exact (div_le_iff (by norm_num)).mp hle
    exact_mod_cast h8
  rw [jsSlice_start_ge _ _ _ hL]
  rfl

theorem C10_final_frame_no_caption_witness :
    (0 : ℚ) < 1 ∧ (1 : ℚ) ≤ 2 ∧ whitespaceWords "hi there".toList ≠ [] ∧
    drawFrameCaption 2 1 "hi there".toList = none :=
  ⟨by norm_num, by norm_num, by decide,
   (C10_final_frame_no_caption 2 1 "hi there".toList (by norm_num) (by norm_num) (by decide)).2⟩

/-- C4 (amended): the caption chunk shown at elapsed time `t` with voice
duration `D` is the one the specification's rule selects — chunks of 8
words, index `floor(progress × chunk_count)`, `progress = min(t/D, 1)` —
with the words obtained by splitting on single space characters (the
source uses `split(' ')`, so other whitespace does not delimit words);
the 16-word scenario shows chunk 0 at progress 0 and chunk 1 at
progress 0.6. -/
theorem C4_caption_schedule :
    (∀ t D : ℚ, ∀ script : List Char, 0 ≤ t → 0 < D →
      drawFrameCaption t D script = captionSpec spaceWords t D script) ∧
    drawFrameCaption 0 5 scenarioScript = some "a b c d e f g h".toList ∧
    drawFrameCaption 3 5 scenarioScript = some "i j k l m n o p".toList := by
  have hgen : ∀ t D : ℚ, ∀ script : List Char, 0 ≤ t → 0 < D →
      drawFrameCaption t D script = captionSpec spaceWords t D script := by
    intro t D script ht hD
    have hidx0 : 0 ≤ captionChunkIndex t D script := by
      unfold captionChunkIndex
      apply Int.floor_nonneg.mpr
      apply mul_nonneg
      · exact le_min (div_nonneg ht hD.le) (by norm_num)
      · positivity
    have hslice : jsSlice (spaceWords script) (captionChunkIndex t D script * 8)
        (captionChunkIndex t D script * 8 + 8) =
        ((spaceWords script).drop (8 * (captionChunkIndex t D script).toNat)).take 8 := by
      rw [jsSlice_nonneg _ _ _ 8 (mul_nonneg hidx0 (by norm_num)) (by norm_num)]
      obtain ⟨n, hn⟩ := Int.eq_ofNat_of_zero_le hidx0
      rw [hn, show ((n : ℤ) * 8) = ((n * 8 : ℕ) : ℤ) from by push_cast; ring,
        Int.toNat_natCast, Int.toNat_natCast, Nat.mul_comm]
    simp only [drawFrameCaption]
    rw [hslice]
    rfl
  refine ⟨hgen, ?_, ?_⟩
  · have h1 : captionChunkIndex 0 5 scenarioScript = 0 := by
      unfold captionChunkIndex captionProgress captionChunkCount
      norm_num [show (spaceWords scenarioScript).length = 16 from by decide]
    simp only [drawFrameCaption]
    rw [h1]
    decide
  · have h2 : captionChunkIndex 3 5 scenarioScript = 1 := by
      unfold captionChunkIndex captionProgress captionChunkCount
      rw [show (spaceWords scenarioScript).length = 16 from by decide]
      rw [min_eq_left (by norm_num : (3 : ℚ) / 5 ≤ 1)]
      norm_num [Int.floor_eq_iff]
    simp only [drawFrameCaption]
    rw [h2]
    decide

theorem C4_caption_schedule_witness :
    (0 : ℚ) ≤ 3 ∧ (0 : ℚ) < 5 ∧
    drawFrameCaption 3 5 scenarioScript = captionSpec spaceWords 3 5 scenarioScript :=
  ⟨by norm_num, by norm_num,
   C4_caption_schedule.1 3 5 scenarioScript (by norm_num) (by norm_num)⟩

/-- C4 counterexample: in the script `"a\nb c d e f g h i"` the first
two words are delimited by a newline.  Split into whitespace-delimited
words (the claim's wording) there are 9 words, 2 chunks, and at progress
0.6 the claim prescribes chunk 1, the single word `"i"`; the code splits
on `' '` only, sees 8 words and 1 chunk, and shows chunk 0. -/
theorem C4_counterexample :
    captionSpec whitespaceWords 3 5 newlineScript = some "i".toList ∧
    drawFrameCaption 3 5 newlineScript = some "a\nb c d e f g h i".toList ∧
    drawFrameCaption 3 5 newlineScript ≠ captionSpec whitespaceWords 3 5 newlineScript := by
  have hws : captionSpec whitespaceWords 3 5 newlineScript = some "i".toList := by
    have h9 : (⌊min ((3 : ℚ) / 5) 1 * ((⌈((whitespaceWords newlineScript).length : ℚ) / 8⌉₊ : ℕ) : ℚ)⌋ : ℤ) = 1 := by
      rw [show (whitespaceWords newlineScript).length = 9 from by decide]
      rw [min_eq_left (by norm_num : (3 : ℚ) / 5 ≤ 1)]
      rw [show (⌈((9 : ℕ) : ℚ) / 8⌉₊ : ℕ) = 2 from by norm_num [Nat.ceil_eq_iff]]
      norm_num [Int.floor_eq_iff]
    simp only [captionSpec]
    rw [h9]
    decide
  have hcode : drawFrameCaption 3 5 newlineScript = some "a\nb c d e f g h i".toList := by
    have h8 : captionChunkIndex 3 5 newlineScript = 0 := by
      unfold captionChunkIndex captionProgress captionChunkCount
      rw [show (spaceWords newlineScript).length = 8 from by decide]
      rw [min_eq_left (by norm_num : (3 : ℚ) / 5 ≤ 1)]
      rw [show ((⌈((8 : ℕ) : ℚ) / 8⌉₊ : ℕ) : ℚ) = 1 by norm_num [Nat.ceil_eq_iff]]
      norm_num [Int.floor_eq_iff]
    simp only [drawFrameCaption]
    rw [h8]
    decide
  refine ⟨hws, hcode, ?_⟩
  rw [hws, hcode]
  decide


theorem VideoPreview.stop_eq (s : VideoPreview.PreviewState) :
    VideoPreview.stop s = Except.ok (VideoPreview.stopPure s) := by
  rcases s with ⟨v, m, g, aid, aact, ip, sft, hc, hi⟩
  rcases v with _ | n1 <;> rcases m with _ | n2 <;> rcases g with _ | gb <;>
    by_cases haid : aid ≠ 0 <;> by_cases hci : hc && hi <;>
    simp [VideoPreview.stop, VideoPreview.stopPure, VideoPreview.drawFrame, haid, hci]

theorem VideoPreview.stopPure_idem (s : VideoPreview.PreviewState) :
    VideoPreview.stopPure (VideoPreview.stopPure s) = VideoPreview.stopPure s := by
  rcases s with ⟨v, m, g, aid, aact, ip, sft, hc, hi⟩
  by_cases haid : aid ≠ 0 <;> by_cases hci : hc && hi <;>
    simp [VideoPreview.stopPure, haid, hci]

/-- C8 (confirmed): `stop()` never surfaces an error (the fallible
`source.stop()`/`disconnect()` calls are individually wrapped, so
"already stopped" errors are swallowed locally), is idempotent — a
second call in a row, with every ref already null, produces the same
outcome — releases both source refs and the gain ref, clears
`isPlaying`, cancels the pending animation callback, and leaves the
renderer showing the frame for time 0.  The animation hypothesis records
the session invariant that a pending callback has a truthy id
(`requestAnimationFrame` ids are non-zero); the canvas/image hypotheses
record that the renderer exists (`drawFrame` draws nothing otherwise),
which also covers the no-active-session case, where all refs are
already null. -/
theorem C8_stop_idempotent_total (s : VideoPreview.PreviewState)
    (hAnim : s.animActive = true → s.animId ≠ 0)
    (hcan : s.hasCanvas = true) (himg : s.hasImage = true) :
    (VideoPreview.stop s >>= VideoPreview.stop) = VideoPreview.stop s ∧
    Except.map (fun r => r.voiceSource) (VideoPreview.stop s) = Except.ok none ∧
    Except.map (fun r => r.musicSource) (VideoPreview.stop s) = Except.ok none ∧
    Except.map (fun r => r.gainNode) (VideoPreview.stop s) = Except.ok none ∧
    Except.map (fun r => r.isPlaying) (VideoPreview.stop s) = Except.ok false ∧
    Except.map (fun r => r.animActive) (VideoPreview.stop s) = Except.ok false ∧
    Except.map (fun r => r.shownFrameTime) (VideoPreview.stop s) = Except.ok (some 0) := by
  have hb : (VideoPreview.stop s >>= VideoPreview.stop) = VideoPreview.stop s := by
    rw [VideoPreview.stop_eq s]
    show VideoPreview.stop (VideoPreview.stopPure s) = _
    rw [VideoPreview.stop_eq, VideoPreview.stopPure_idem]
  have hanim : Except.map (fun r => r.animActive) (VideoPreview.stop s) = Except.ok false := by
    rw [VideoPreview.stop_eq s]
    show Except.ok (if s.animId ≠ 0 then false else s.animActive) = Except.ok false
    by_cases haid : s.animId ≠ 0
    · rw [if_pos haid]
    · rw [if_neg haid]
      cases has : s.animActive
      · rfl
      · exact absurd (hAnim has) haid
  have hframe : Except.map (fun r => r.shownFrameTime) (VideoPreview.stop s) =
      Except.ok (some 0) := by
    rw [VideoPreview.stop_eq s]
    show Except.ok (if s.hasCanvas && s.hasImage then some 0 else s.shownFrameTime) = _
    rw [hcan, himg]
    rfl
  exact ⟨hb, by rw [VideoPreview.stop_eq s]; rfl, by rw [VideoPreview.stop_eq s]; rfl,
    by rw [VideoPreview.stop_eq s]; rfl, by rw [VideoPreview.stop_eq s]; rfl, hanim, hframe⟩

theorem C8_stop_idempotent_total_witness :
    (previewSample.animActive = true → previewSample.animId ≠ 0) ∧
    (VideoPreview.stop previewSample >>= VideoPreview.stop) = VideoPreview.stop previewSample ∧
    Except.map (fun r => r.shownFrameTime) (VideoPreview.stop previewSample) =
      Except.ok (some 0) :=
  ⟨by decide,
   (C8_stop_idempotent_total previewSample (by decide) rfl rfl).1,
   (C8_stop_idempotent_total previewSample (by decide) rfl rfl).2.2.2.2.2.2⟩

theorem getShared_inv (s : EngineProc)
    (h : s.createdIds.length =
      (if s.sharedAudioContext.isSome then 1 else 0) +
      (if s.audioContextRef.isSome then 1 else 0)) :
    (getSharedAudioContext s).2.createdIds.length =
      (if (getSharedAudioContext s).2.sharedAudioContext.isSome then 1 else 0) +
      (if (getSharedAudioContext s).2.audioContextRef.isSome then 1 else 0) := by
  cases hs : s.sharedAudioContext with
  | none =>
    rw [hs] at h
    simp only [Option.isSome_none, Bool.false_eq_true, if_false, Nat.zero_add] at h
    simp [getSharedAudioContext, hs, newAudioContext, h]
    exact Nat.add_comm _ 1
  | some hh =>
    rw [hs] at h
    simp only [Option.isSome_some, if_true] at h
    cases hst : hh.status <;> simp [getSharedAudioContext, hs, hst, h]

theorem videoPlay_inv (s : EngineProc)
    (h : s.createdIds.length =
      (if s.sharedAudioContext.isSome then 1 else 0) +
      (if s.audioContextRef.isSome then 1 else 0)) :
    (videoPlayCtx s).2.createdIds.length =
      (if (videoPlayCtx s).2.sharedAudioContext.isSome then 1 else 0) +
      (if (videoPlayCtx s).2.audioContextRef.isSome then 1 else 0) := by
  cases hr : s.audioContextRef with
  | none =>
    rw [hr] at h
    simp only [Option.isSome_none, Bool.false_eq_true, if_false, Nat.add_zero] at h
    simp [videoPlayCtx, hr, newAudioContext, h]
  | some hh =>
    rw [hr] at h
    simp only [Option.isSome_some, if_true] at h
    cases hst : hh.status <;> simp [videoPlayCtx, hr, hst, h]

theorem engineStep_inv (s : EngineProc) (op : EngineOp)
    (h : s.createdIds.length =
      (if s.sharedAudioContext.isSome then 1 else 0) +
      (if s.audioContextRef.isSome then 1 else 0)) :
    (engineStep s op).createdIds.length =
      (if (engineStep s op).sharedAudioContext.isSome then 1 else 0) +
      (if (engineStep s op).audioContextRef.isSome then 1 else 0) := by
  cases op with
  | decodeVoice => exact getShared_inv s h
  | decodeFile => exact getShared_inv s h
  | playPreviewOp => exact getShared_inv s h
  | videoPlay => exact videoPlay_inv s h
  | platformSuspendShared => simpa [engineStep, Option.isSome_map] using h
  | platformSuspendVideo => simpa [engineStep, Option.isSome_map] using h

theorem engineRun_inv (ops : List EngineOp) :
    (engineRun engineInit ops).createdIds.length =
      (if (engineRun engineInit ops).sharedAudioContext.isSome then 1 else 0) +
      (if (engineRun engineInit ops).audioContextRef.isSome then 1 else 0) := by
  have hgen : ∀ (l : List EngineOp) (s : EngineProc),
      s.createdIds.length =
        (if s.sharedAudioContext.isSome then 1 else 0) +
        (if s.audioContextRef.isSome then 1 else 0) →
      (engineRun s l).createdIds.length =
        (if (engineRun s l).sharedAudioContext.isSome then 1 else 0) +
        (if (engineRun s l).audioContextRef.isSome then 1 else 0) := by
    intro l
    induction l with
    | nil => intro s h; exact h
    | cons op rest ih => intro s h; exact ih _ (engineStep_inv s op h)
  exact hgen ops engineInit (by decide)

theorem engineStep_shared_id (s : EngineProc) (op : EngineOp) (h : Handle)
    (hs : s.sharedAudioContext = some h) :
    Option.map Handle.id (engineStep s op).sharedAudioContext = some h.id := by
  cases op with
  | decodeVoice => cases hst : h.status <;> simp [engineStep, getSharedAudioContext, hs, hst]
  | decodeFile => cases hst : h.status <;> simp [engineStep, getSharedAudioContext, hs, hst]
  | playPreviewOp => cases hst : h.status <;> simp [engineStep, getSharedAudioContext, hs, hst]
  | videoPlay =>
    cases hr : s.audioContextRef with
    | none => simp [engineStep, videoPlayCtx, newAudioContext, hr, hs]
    | some hh => cases hst : hh.status <;> simp [engineStep, videoPlayCtx, hr, hst, hs]
  | platformSuspendShared => simp [engineStep, hs]
  | platformSuspendVideo => simp [engineStep, hs]

theorem engineStep_video_id (s : EngineProc) (op : EngineOp) (h : Handle)
    (hr : s.audioContextRef = some h) :
    Option.map Handle.id (engineStep s op).audioContextRef = some h.id := by
  cases op with
  | decodeVoice =>
    cases hs : s.sharedAudioContext with
    | none => simp [engineStep, getSharedAudioContext, newAudioContext, hs, hr]
    | some hh => cases hst : hh.status <;> simp [engineStep, getSharedAudioContext, hs, hst, hr]
  | decodeFile =>
    cases hs : s.sharedAudioContext with
    | none => simp [engineStep, getSharedAudioContext, newAudioContext, hs, hr]
    | some hh => cases hst : hh.status <;> simp [engineStep, getSharedAudioContext, hs, hst, hr]
  | playPreviewOp =>
    cases hs : s.sharedAudioContext with
    | none => simp [engineStep, getSharedAudioContext, newAudioContext, hs, hr]
    | some hh => cases hst : hh.status <;> simp [engineStep, getSharedAudioContext, hs, hst, hr]
  | videoPlay => cases hst : h.status <;> simp [engineStep, videoPlayCtx, hr, hst]
  | platformSuspendShared => simp [engineStep, hr]
  | platformSuspendVideo => simp [engineStep, hr]

theorem engineStep_shared_resume (s : EngineProc) (op : EngineOp) (hid : ℕ)
    (hu : usesShared op = true)
    (hs : s.sharedAudioContext = some ⟨hid, CtxStatus.suspended⟩) :
    (engineStep s op).sharedAudioContext = some ⟨hid, CtxStatus.running⟩ := by
  cases op <;> simp_all [usesShared, engineStep, getSharedAudioContext]

/-- C7 counterexample: a decode operation lazily creates the shared
audio-utils handle (id 0); the preview component's `play()` then
constructs a second, distinct engine handle (id 1) for its own
`audioContextRef` instead of reusing the shared one — two process-wide
engine handles are constructed, refuting "exactly one". -/
theorem C7_counterexample :
    (engineRun engineInit [EngineOp.decodeVoice]).createdIds = [0] ∧
    (engineRun engineInit [EngineOp.decodeVoice, EngineOp.videoPlay]).createdIds = [0, 1] ∧
    (engineRun engineInit [EngineOp.decodeVoice, EngineOp.videoPlay]).createdIds.length ≠ 1 := by
  refine ⟨rfl, rfl, by decide⟩

/-- C7 (amended): the process holds at most two engine handles — the
audio-utils module's shared context, lazily created on first use and
reused (resumed, never recreated) by every decode and preview-playback
operation of that module, and the `VideoPreview` component's own
context, likewise lazily created once for its `play()` path.  Once
either handle exists, no operation ever replaces it (its identity is
stable), and a shared-context user finding the shared handle suspended
resumes that same handle. -/
theorem C7_context_lifecycle :
    (∀ ops : List EngineOp, (engineRun engineInit ops).createdIds.length ≤ 2) ∧
    (∀ (s : EngineProc) (op : EngineOp) (h : Handle),
      s.sharedAudioContext = some h →
      Option.map Handle.id (engineStep s op).sharedAudioContext = some h.id) ∧
    (∀ (s : EngineProc) (op : EngineOp) (h : Handle),
      s.audioContextRef = some h →
      Option.map Handle.id (engineStep s op).audioContextRef = some h.id) ∧
    (∀ (s : EngineProc) (op : EngineOp) (hid : ℕ),
      usesShared op = true →
      s.sharedAudioContext = some ⟨hid, CtxStatus.suspended⟩ →
      (engineStep s op).sharedAudioContext = some ⟨hid, CtxStatus.running⟩) := by
  refine ⟨?_, engineStep_shared_id, engineStep_video_id, engineStep_shared_resume⟩
  intro ops
  rw [engineRun_inv ops]
  have h1 : (if (engineRun engineInit ops).sharedAudioContext.isSome then 1 else 0) ≤ 1 := by
    split <;> omega
  have h2 : (if (engineRun engineInit ops).audioContextRef.isSome then 1 else 0) ≤ 1 := by
    split <;> omega
  omega

theorem C7_context_lifecycle_witness :
    (engineRun engineInit [EngineOp.decodeVoice]).createdIds.length ≤ 2 ∧
    Option.map Handle.id
      (engineStep (engineRun engineInit [EngineOp.decodeVoice])
        EngineOp.decodeFile).sharedAudioContext = some 0 ∧
    Option.map Handle.id
      (engineStep (engineRun engineInit [EngineOp.videoPlay])
        EngineOp.decodeVoice).audioContextRef = some 0 ∧
    (engineStep (engineRun engineInit [EngineOp.decodeVoice, EngineOp.platformSuspendShared])
        EngineOp.playPreviewOp).sharedAudioContext = some ⟨0, CtxStatus.running⟩ :=
  ⟨C7_context_lifecycle.1 [EngineOp.decodeVoice],
   C7_context_lifecycle.2.1 _ EngineOp.decodeFile ⟨0, CtxStatus.running⟩ (by decide),
   C7_context_lifecycle.2.2.1 _ EngineOp.decodeVoice ⟨0, CtxStatus.running⟩ (by decide),
   C7_context_lifecycle.2.2.2 _ EngineOp.playPreviewOp 0 (by decide) (by decide)⟩
